import Mathlib

/-!
# Verification of the comapeo-cloud auth routes

Shallow embedding of the credential-issuance and delegation subsystem of
`src/routes/auth.js`: coordinator registration (`POST /auth/register`),
unregistration (`DELETE /auth/unregister`), coordinator login
(`POST /auth/coordinator`) and member delegation (`POST /auth/member`).

Strings are modelled as `List Char`.  The persistent key-value store
(`fastify.db`), the error constructors (`errors.js`) and the bearer
verifier (`utils.js`) are collaborators whose code is not part of the
sources; they are modelled from the spec's contracts (§4.2, §6, §7) and
are marked `Modelled from the spec:` below.  The external project
registry (`fastify.comapeo.listProjects()`) is passed to each operation
as a list of project names; the token generator and the clock are passed
as explicit `fresh` / `now` parameters.
-/

namespace Comapeo

abbrev Str := List Char

/-- Hexadecimal digit value, as accepted by the percent-escapes of
`decodeURIComponent` (`0-9`, `a-f`, `A-F`). -/
def hexVal (c : Char) : Option Nat :=
  if '0' ≤ c ∧ c ≤ '9' then some (c.toNat - '0'.toNat)
  else if 'a' ≤ c ∧ c ≤ 'f' then some (c.toNat - 'a'.toNat + 10)
  else if 'A' ≤ c ∧ c ≤ 'F' then some (c.toNat - 'A'.toNat + 10)
  else none

/-- Is a byte a UTF-8 continuation byte (`0x80–0xBF`)? -/
def isCont (b : Nat) : Bool := 0x80 ≤ b && b < 0xC0

/-- ECMAScript `decodeURIComponent` on a character list (the component
variant decodes every escape; its reserved set is empty).  `%` must be
followed by two hex digits; a lead byte `≥ 0x80` must begin a valid
UTF-8 sequence whose continuation bytes are themselves given as
percent-escapes, with overlong encodings, surrogate code points and
code points above `0x10FFFF` rejected.  `none` models the thrown
`URIError`. -/
def decodeChars : Str → Option Str
  | [] => some []
  | '%' :: h1 :: h2 :: tl =>
    match hexVal h1, hexVal h2 with
    | some a, some b =>
      let B := 16 * a + b
      if B < 0x80 then (decodeChars tl).map (Char.ofNat B :: ·)
      else if B < 0xC2 then none
      else if B < 0xE0 then
        match tl with
        | '%' :: g1 :: g2 :: tl2 =>
          match hexVal g1, hexVal g2 with
          | some a1, some b1 =>
            let B1 := 16 * a1 + b1
            if isCont B1 then
              (decodeChars tl2).map
                (Char.ofNat ((B - 0xC0) * 0x40 + (B1 - 0x80)) :: ·)
            else none
          | _, _ => none
        | _ => none
      else if B < 0xF0 then
        match tl with
        | '%' :: g1 :: g2 :: '%' :: g3 :: g4 :: tl2 =>
          match hexVal g1, hexVal g2, hexVal g3, hexVal g4 with
          | some a1, some b1, some a2, some b2 =>
            let B1 := 16 * a1 + b1
            let B2 := 16 * a2 + b2
            let v := (B - 0xE0) * 0x1000 + (B1 - 0x80) * 0x40 + (B2 - 0x80)
            if isCont B1 && isCont B2 &&
                (0x800 ≤ v && (v < 0xD800 || 0xDFFF < v)) then
              (decodeChars tl2).map (Char.ofNat v :: ·)
            else none
          | _, _, _, _ => none
        | _ => none
      else if B < 0xF5 then
        match tl with
        | '%' :: g1 :: g2 :: '%' :: g3 :: g4 :: '%' :: g5 :: g6 :: tl2 =>
          match hexVal g1, hexVal g2, hexVal g3, hexVal g4,
              hexVal g5, hexVal g6 with
          | some a1, some b1, some a2, some b2, some a3, some b3 =>
            let B1 := 16 * a1 + b1
            let B2 := 16 * a2 + b2
            let B3 := 16 * a3 + b3
            let v := (B - 0xF0) * 0x40000 + (B1 - 0x80) * 0x1000 +
              (B2 - 0x80) * 0x40 + (B3 - 0x80)
            if isCont B1 && isCont B2 && isCont B3 &&
                (0x10000 ≤ v && v ≤ 0x10FFFF) then
              (decodeChars tl2).map (Char.ofNat v :: ·)
            else none
          | _, _, _, _, _, _ => none
        | _ => none
      else none
    | _, _ => none
  | '%' :: _ :: [] => none
  | '%' :: [] => none
  | c :: tl => (decodeChars tl).map (c :: ·)

/-- The builtin `decodeURIComponent` as used at `auth.js:62` and `auth.js:210`;
`none` models the thrown `URIError`. -/
def decodeURIComponent (s : Str) : Option Str := decodeChars s

/-- Coordinator record (spec §3): `token` is absent until a successful
login; `createdAt` timestamps are modelled as naturals. -/
structure Coordinator where
  phoneNumber : Str
  projectName : Str
  token : Option Str
  createdAt : Nat
deriving DecidableEq, Repr

/-- Member record (spec §3). -/
structure Member where
  phoneNumber : Str
  token : Str
  coordinatorPhone : Str
  projectName : Str
  createdAt : Nat
deriving DecidableEq, Repr

/-- The credential store's contents. -/
structure Store where
  coordinators : List Coordinator
  members : List Member
deriving DecidableEq, Repr

def emptyStore : Store := ⟨[], []⟩

/-- Modelled from the spec: `fastify.db.findCoordinatorByPhone` (the db
plugin is not among the sources; §6 says it is keyed by `phoneNumber`). -/
def findCoordinatorByPhone (p : Str) (s : Store) : Option Coordinator :=
  s.coordinators.find? (fun c => c.phoneNumber == p)

/-- Modelled from the spec: `fastify.db.deleteCoordinatorByPhone`. -/
def deleteCoordinatorByPhone (p : Str) (s : Store) : Store :=
  { s with coordinators := s.coordinators.filter (fun c => !(c.phoneNumber == p)) }

/-- Modelled from the spec: `fastify.db.findCoordinatorByProject`. -/
def findCoordinatorByProject (n : Str) (s : Store) : Option Coordinator :=
  s.coordinators.find? (fun c => c.projectName == n)

/-- Modelled from the spec: `fastify.db.saveCoordinator`, an upsert keyed
by `phoneNumber` (§6: "each keyed by the stated identity field"). -/
def saveCoordinator (c : Coordinator) (s : Store) : Store :=
  { s with coordinators :=
      c :: s.coordinators.filter (fun x => !(x.phoneNumber == c.phoneNumber)) }

/-- Modelled from the spec: `fastify.db.findProjectByCoordinatorPhone`
(§4.6 step 2: "the project name bound to that coordinator via a store
query keyed by coordinator phone"). -/
def findProjectByCoordinatorPhone (p : Str) (s : Store) : Option Str :=
  (findCoordinatorByPhone p s).map (fun c => c.projectName)

/-- Modelled from the spec: `fastify.db.findMemberByPhone`. -/
def findMemberByPhone (p : Str) (s : Store) : Option Member :=
  s.members.find? (fun m => m.phoneNumber == p)

/-- Modelled from the spec: `fastify.db.saveMember`, an upsert keyed by
`phoneNumber`. -/
def saveMember (m : Member) (s : Store) : Store :=
  { s with members :=
      m :: s.members.filter (fun x => !(x.phoneNumber == m.phoneNumber)) }

/-- Error kinds (spec §7), plus the `URIError` that `decodeURIComponent`
throws, which is not one of the documented typed errors. -/
inductive ErrKind where
  | unauthorized
  | badRequest
  | conflict
  | notFound
  | projectNotFound
  | uriMalformed
deriving DecidableEq, Repr

/-- Modelled from the spec: the typed errors of `errors.js` (not among
the sources); §7 says each carries a kind and a message. -/
structure AuthError where
  kind : ErrKind
  msg : Str
deriving DecidableEq, Repr

def unauthorizedError (m : Str) : AuthError := ⟨.unauthorized, m⟩

def badRequestError (m : Str) : AuthError := ⟨.badRequest, m⟩

def conflictError (m : Str) : AuthError := ⟨.conflict, m⟩

def notFoundError (m : Str) : AuthError := ⟨.notFound, m⟩

/-- Modelled from the spec: `errors.projectNotFoundError()`. -/
def projectNotFoundError : AuthError := ⟨.projectNotFound, ("Project not found").toList⟩

/-- The `URIError` thrown by `decodeURIComponent` on a malformed escape. -/
def uriError : AuthError := ⟨.uriMalformed, ("URI malformed").toList⟩

def projectExistsMsg : Str := ("Project name already exists").toList

def invalidCredentialsMsg : Str := ("Invalid phone number or project name").toList

def invalidCoordMsg : Str := ("Invalid coordinator phone number").toList

def noProjectMsg : Str := ("No project found for coordinator").toList

def invalidPhoneFormatMsg : Str := ("Invalid phone number format").toList

def alreadyRegisteredMsg : Str := ("Phone number already registered").toList

def unauthorizedMsg : Str := ("Unauthorized").toList

/-- Modelled from the spec: `verifyBearerAuth` of `utils.js` (not among
the sources; §4.2: compare the presented credential to the expected one,
fail `Unauthorized` on mismatch).  The presented credential is passed
already extracted from the authorization header. -/
def verifyBearerAuth (presented expected : Str) : Except AuthError Unit :=
  if presented == expected then .ok () else .error (unauthorizedError unauthorizedMsg)

/-- Lines 64-73 of `auth.js`: if a coordinator already exists for the phone
number, delete it; otherwise the store is left as is. -/
def registerStore (phoneNumber : Str) (s : Store) : Store :=
  match findCoordinatorByPhone phoneNumber s with
  | some _ => deleteCoordinatorByPhone phoneNumber s
  | none => s

/-- Handler of `POST /auth/register` (`auth.js:52-110`).  The registry parameter is
the name list of `fastify.comapeo.listProjects()`; `now` the clock.
Returns the possibly mutated store and the handler's outcome (the
returned `{phoneNumber, projectName}` or the thrown error). -/
def register (registry : List Str) (now : Nat) (phoneNumber projectName : Str)
    (s : Store) : Store × Except AuthError (Str × Str) :=
  match decodeURIComponent projectName with
  | none => (s, .error uriError)
  | some decodedProjectName =>
    let s1 := registerStore phoneNumber s
    match findCoordinatorByProject decodedProjectName s1 with
    | some _ => (s1, .error (conflictError projectExistsMsg))
    | none =>
      if decodedProjectName ∈ registry then
        (s1, .error (conflictError projectExistsMsg))
      else
        let coordinator : Coordinator :=
          ⟨phoneNumber, decodedProjectName, none, now⟩
        (saveCoordinator coordinator s1,
          .ok (coordinator.phoneNumber, coordinator.projectName))

/-- Handler of `DELETE /auth/unregister` (`auth.js:134-158`). -/
def unregister (phoneNumber : Str) (s : Store) : Store × Except AuthError Str :=
  match findCoordinatorByPhone phoneNumber s with
  | none => (s, .error (notFoundError (("Coordinator not found").toList)))
  | some _ =>
    (deleteCoordinatorByPhone phoneNumber s,
      .ok (("Coordinator successfully unregistered").toList))

/-- Handler of `POST /auth/coordinator` (`auth.js:184-238`): coordinator login.
`fresh` is the token the Token Generator would produce.  Returns the
possibly mutated store and `{token, projectName}` or the thrown error. -/
def login (registry : List Str) (fresh : Str) (now : Nat)
    (phoneNumber projectName : Str) (s : Store) :
    Store × Except AuthError (Str × Str) :=
  match findCoordinatorByPhone phoneNumber s with
  | none => (s, .error (unauthorizedError invalidCredentialsMsg))
  | some coordinator =>
    if coordinator.projectName ≠ projectName then
      (s, .error (unauthorizedError invalidCredentialsMsg))
    else
      match decodeURIComponent coordinator.projectName with
      | none => (s, .error uriError)
      | some decodedProjectName =>
        if decodedProjectName ∈ registry then
          (saveCoordinator { coordinator with token := some fresh, createdAt := now } s,
            .ok (fresh, coordinator.projectName))
        else (s, .error projectNotFoundError)

/-- The member phone pattern of `auth.js:303`, the `[1-9]\d{1,14}`
part: a first digit `1-9` followed by 1 to 14 further digits. -/
def phoneCore : Str → Bool
  | [] => false
  | d :: ds =>
    decide ('1' ≤ d) && decide (d ≤ '9') &&
      (decide (1 ≤ ds.length) && decide (ds.length ≤ 14)) &&
      ds.all (fun c => decide ('0' ≤ c) && decide (c ≤ '9'))

/-- The full member phone test `/^\+?[1-9]\d\x7b1,14\x7d$/u` of
`auth.js:303`: an optional leading `+` (a string starting with `+`
matches only with the `+` consumed, since `+` is not in `[1-9]`). -/
def isValidMemberPhone : Str → Bool
  | [] => false
  | c :: rest => if c = '+' then phoneCore rest else phoneCore (c :: rest)

/-- Handler of `POST /auth/member` (`auth.js:263-344`): member delegation.
`presentedToken` is the bearer credential extracted from the
authorization header; `fresh` the generated member token. -/
def delegateMember (fresh : Str) (now : Nat)
    (coordPhoneNumber memberPhoneNumber presentedToken : Str) (s : Store) :
    Store × Except AuthError (Str × Str) :=
  match findCoordinatorByPhone coordPhoneNumber s with
  | none => (s, .error (unauthorizedError invalidCoordMsg))
  | some coordinator =>
    match coordinator.token with
    | none => (s, .error (unauthorizedError invalidCoordMsg))
    | some coordToken =>
      match findProjectByCoordinatorPhone coordPhoneNumber s with
      | none => (s, .error (unauthorizedError noProjectMsg))
      | some projectName =>
        match verifyBearerAuth presentedToken coordToken with
        | .error e => (s, .error e)
        | .ok _ =>
          if isValidMemberPhone memberPhoneNumber then
            match findMemberByPhone memberPhoneNumber s with
            | some _ => (s, .error (badRequestError alreadyRegisteredMsg))
            | none =>
              let m : Member :=
                ⟨memberPhoneNumber, fresh, coordinator.phoneNumber, projectName, now⟩
              (saveMember m s, .ok (fresh, projectName))
          else (s, .error (badRequestError invalidPhoneFormatMsg))

/-- One step of the system: any of the four state-changing operations,
with arbitrary request data, clock, generated token and external
registry contents. -/
inductive Step : Store → Store → Prop
  | register (registry : List Str) (now : Nat) (p n : Str) (s : Store) :
      Step s (register registry now p n s).1
  | unregister (p : Str) (s : Store) :
      Step s (unregister p s).1
  | login (registry : List Str) (fresh : Str) (now : Nat) (p n : Str) (s : Store) :
      Step s (login registry fresh now p n s).1
  | delegate (fresh : Str) (now : Nat) (cp mp tk : Str) (s : Store) :
      Step s (delegateMember fresh now cp mp tk s).1

/-- States reachable from the empty store by any sequence of operations. -/
def Reachable (s : Store) : Prop :=
  Relation.ReflTransGen Step emptyStore s

/-- The coordinator-table invariant of spec §3: pairwise, stored
coordinators have distinct phone numbers and distinct project names. -/
def CoordInvariant (s : Store) : Prop :=
  s.coordinators.Pairwise
    (fun a b => a.phoneNumber ≠ b.phoneNumber ∧ a.projectName ≠ b.projectName)

/-- The member phone pattern `/^\+?[1-9]\d\x7b1,14\x7d$/` said in words:
an optional leading `+`, then a first digit `1-9`, then 1 to 14 further
digits (2 to 15 digits in total). -/
def PhonePatternSpec (s : Str) : Prop :=
  ∃ d ds, (s = d :: ds ∨ s = '+' :: d :: ds) ∧
    '1' ≤ d ∧ d ≤ '9' ∧ (∀ c ∈ ds, '0' ≤ c ∧ c ≤ '9') ∧
    1 ≤ ds.length ∧ ds.length ≤ 14

/-! Concrete sample data used by the witness theorems. -/

def phone1 : Str := ("1").toList

def phone2 : Str := ("2").toList

def alphaName : Str := ("Alpha").toList

def betaName : Str := ("Beta").toList

def tok1 : Str := ("t").toList

/-- A coordinator for `phone1`, bound to `"Alpha"`, holding a token. -/
def coordAlpha : Coordinator := ⟨phone1, alphaName, some tok1, 0⟩

/-- A store with the single coordinator `coordAlpha`. -/
def storeAlpha : Store := ⟨[coordAlpha], []⟩

/-- A coordinator for `phone1` bound to `"Beta"`. -/
def coordBeta : Coordinator := ⟨phone1, betaName, some tok1, 0⟩

/-- A tokenless coordinator for `phone2` bound to `"Alpha"`. -/
def coordAlpha2 : Coordinator := ⟨phone2, alphaName, none, 0⟩

/-- A store where `phone1` holds `"Beta"` and `phone2` holds `"Alpha"`. -/
def storeTwo : Store := ⟨[coordBeta, coordAlpha2], []⟩

/-- A tokenless coordinator for `phone1` bound to `"Alpha"`. -/
def coordFresh : Coordinator := ⟨phone1, alphaName, none, 0⟩

/-- A store with the single tokenless coordinator `coordFresh`. -/
def storeFresh : Store := ⟨[coordFresh], []⟩

/-! ## Helper lemmas -/

theorem delete_of_not_found {P : Str} {s : Store}
    (h : findCoordinatorByPhone P s = none) : deleteCoordinatorByPhone P s = s := by
  have hh : s.coordinators.filter (fun c => !(c.phoneNumber == P)) = s.coordinators := by
    rw [List.filter_eq_self]
    intro a ha
    unfold findCoordinatorByPhone at h
    rw [List.find?_eq_none] at h
    simpa using h a ha
  unfold deleteCoordinatorByPhone
  rw [hh]

theorem registerStore_eq_delete (P : Str) (s : Store) :
    registerStore P s = deleteCoordinatorByPhone P s := by
  unfold registerStore
  cases hf : findCoordinatorByPhone P s with
  | none => exact (delete_of_not_found hf).symm
  | some c => rfl

/-- Evaluation of `register`, when the name decodes, in terms of an unconditional delete
of the caller's record. -/
theorem register_eq_of_decode {registry : List Str} {now : Nat} {P N d : Str}
    {s : Store} (hdec : decodeURIComponent N = some d) :
    register registry now P N s =
      match findCoordinatorByProject d (deleteCoordinatorByPhone P s) with
      | some _ =>
        (deleteCoordinatorByPhone P s, .error (conflictError projectExistsMsg))
      | none =>
        if d ∈ registry then
          (deleteCoordinatorByPhone P s, .error (conflictError projectExistsMsg))
        else
          (saveCoordinator ⟨P, d, none, now⟩ (deleteCoordinatorByPhone P s),
            .ok (P, d)) := by
  unfold register
  rw [hdec]
  simp only [registerStore_eq_delete]

theorem findCoordinatorByPhone_phone {P : Str} {s : Store} {c : Coordinator}
    (h : findCoordinatorByPhone P s = some c) : c.phoneNumber = P := by
  unfold findCoordinatorByPhone at h
  simpa using List.find?_some h

theorem findCoordinatorByPhone_mem {P : Str} {s : Store} {c : Coordinator}
    (h : findCoordinatorByPhone P s = some c) : c ∈ s.coordinators := by
  unfold findCoordinatorByPhone at h
  exact List.mem_of_find?_eq_some h

theorem findCoordinatorByPhone_save (c : Coordinator) (s : Store) :
    findCoordinatorByPhone c.phoneNumber (saveCoordinator c s) = some c := by
  unfold findCoordinatorByPhone saveCoordinator
  exact List.find?_cons_of_pos _ (by simp)

theorem findCoordinatorByPhone_save_key {p : Str} (c : Coordinator) (s : Store)
    (hp : c.phoneNumber = p) :
    findCoordinatorByPhone p (saveCoordinator c s) = some c := by
  unfold findCoordinatorByPhone saveCoordinator
  exact List.find?_cons_of_pos _ (by simp [hp])

/-! ## Claim C1 -/

/-- Claim C1: for a phone `P` already bound to some project, `register P N`
deletes the old record (with any issued token) before the conflict check, so
re-registering under a project name held by `P` itself does not conflict:
provided no other stored coordinator and no externally listed project holds
the decoded `N`, the call succeeds, and afterwards exactly one coordinator
record exists for `P`, bound to the decoded `N`, with no token and with
`createdAt` the current time. -/
theorem register_self_override (registry : List Str) (now : Nat) (P N d : Str)
    (s : Store) (c : Coordinator)
    (hdec : decodeURIComponent N = some d)
    (_hfind : findCoordinatorByPhone P s = some c)
    (hothers : ∀ x ∈ s.coordinators, x.phoneNumber ≠ P → x.projectName ≠ d)
    (hreg : d ∉ registry) :
    (register registry now P N s).2 = .ok (P, d) ∧
    (register registry now P N s).1.coordinators.filter
        (fun x => x.phoneNumber == P) = [⟨P, d, none, now⟩] := by
  rw [register_eq_of_decode hdec]
  have hconf : findCoordinatorByProject d (deleteCoordinatorByPhone P s) = none := by
    unfold findCoordinatorByProject deleteCoordinatorByPhone
    rw [List.find?_eq_none]
    intro x hx
    simp only [List.mem_filter] at hx
    have hxp : x.phoneNumber ≠ P := by simpa using hx.2
    simpa using hothers x hx.1 hxp
  rw [hconf, if_neg hreg]
  refine ⟨rfl, ?_⟩
  unfold saveCoordinator deleteCoordinatorByPhone
  simp only [List.filter_filter]
  rw [List.filter_cons_of_pos (by simp)]
  have hnil : List.filter (fun x => x.phoneNumber == P)
      (List.filter
        (fun x => !(x.phoneNumber ==
          (⟨P, d, none, now⟩ : Coordinator).phoneNumber) && !(x.phoneNumber == P))
        s.coordinators) = [] := by
    rw [List.filter_filter, List.filter_eq_nil_iff]
    intro a _
    cases hq : a.phoneNumber == P <;> simp [hq]
  rw [hnil]

/-- Witness for C1: the coordinator of `storeAlpha` re-registers the very
project name it currently holds (`"Alpha"`), and does not self-conflict. -/
theorem register_self_override_witness :
    (register [] 5 phone1 alphaName storeAlpha).2 = .ok (phone1, alphaName) ∧
    (register [] 5 phone1 alphaName storeAlpha).1.coordinators.filter
        (fun x => x.phoneNumber == phone1) = [⟨phone1, alphaName, none, 5⟩] :=
  register_self_override [] 5 phone1 alphaName alphaName storeAlpha coordAlpha
    (by decide) (by decide) (by decide) (by decide)

/-! ## Claim C3 -/

/-- Claim C3: `register P N` fails with `Conflict` exactly when, after `P`'s
own prior record has been removed, some remaining stored coordinator holds
the decoded name or the external registry lists a project with that name;
and when it so fails the resulting state is the store with `P`'s record
deleted — a pre-existing record for `P` is not restored on error. -/
theorem register_conflict_spec (registry : List Str) (now : Nat) (P N d : Str)
    (s : Store) (hdec : decodeURIComponent N = some d) :
    ((register registry now P N s).2 = .error (conflictError projectExistsMsg) ↔
      (∃ c, findCoordinatorByProject d (deleteCoordinatorByPhone P s) = some c) ∨
        d ∈ registry) ∧
    ((register registry now P N s).2 = .error (conflictError projectExistsMsg) →
      (register registry now P N s).1 = deleteCoordinatorByPhone P s) := by
  rw [register_eq_of_decode hdec]
  cases hc : findCoordinatorByProject d (deleteCoordinatorByPhone P s) with
  | some c => exact ⟨by simp, fun _ => rfl⟩
  | none =>
    by_cases hr : d ∈ registry
    · rw [if_pos hr]
      exact ⟨by simp [hr], fun _ => rfl⟩
    · rw [if_neg hr]
      exact ⟨by simp [hr], fun h => absurd h (by simp)⟩

/-- Witness for C3: in `storeTwo`, `phone1` (holding `"Beta"` and a token)
re-registers as `"Alpha"`, which `phone2` holds; the call conflicts and
`phone1`'s old record stays deleted. -/
theorem register_conflict_spec_witness :
    (register [] 0 phone1 alphaName storeTwo).2 =
      .error (conflictError projectExistsMsg) ∧
    (register [] 0 phone1 alphaName storeTwo).1 =
      deleteCoordinatorByPhone phone1 storeTwo := by
  have h := register_conflict_spec [] 0 phone1 alphaName alphaName storeTwo (by decide)
  have hconf := h.1.mpr (Or.inl ⟨coordAlpha2, by decide⟩)
  exact ⟨hconf, h.2 hconf⟩

/-! ## Claim C10 -/

theorem register_ok_state (registry : List Str) (now : Nat) (P N d : Str)
    (s : Store) (r : Str × Str)
    (hdec : decodeURIComponent N = some d)
    (hok : (register registry now P N s).2 = .ok r) :
    r = (P, d) ∧
    (register registry now P N s).1 =
      saveCoordinator ⟨P, d, none, now⟩ (deleteCoordinatorByPhone P s) := by
  cases hc : findCoordinatorByProject d (deleteCoordinatorByPhone P s) with
  | some c =>
    simp only [register_eq_of_decode hdec, hc] at hok
    exact Except.noConfusion hok
  | none =>
    by_cases hr : d ∈ registry
    · simp only [register_eq_of_decode hdec, hc, if_pos hr] at hok
      exact Except.noConfusion hok
    · simp only [register_eq_of_decode hdec, hc, if_neg hr] at hok ⊢
      exact ⟨(Except.ok.inj hok).symm, trivial⟩

/-- Claim C10: the register-then-login round trip fails for encoded names:
if `N` decodes to `d ≠ N` and `register P N` succeeded, then `login P N` on
the resulting store fails `Unauthorized` (register stored the decoded name,
login compares the supplied value undecoded), and the stored-name check of
login passes for a supplied value `M` exactly when `M = d`. -/
theorem register_login_roundtrip_unauthorized (registry registry2 : List Str)
    (now now2 : Nat) (fresh P N d : Str) (s : Store) (r : Str × Str)
    (hdec : decodeURIComponent N = some d)
    (hne : d ≠ N)
    (hok : (register registry now P N s).2 = .ok r) :
    (login registry2 fresh now2 P N (register registry now P N s).1).2 =
      .error (unauthorizedError invalidCredentialsMsg) ∧
    (∀ M, (∃ c, findCoordinatorByPhone P (register registry now P N s).1 = some c ∧
        c.projectName = M) ↔ M = d) := by
  obtain ⟨-, hst⟩ := register_ok_state registry now P N d s r hdec hok
  rw [hst]
  have hfind : findCoordinatorByPhone P
      (saveCoordinator ⟨P, d, none, now⟩ (deleteCoordinatorByPhone P s)) =
      some ⟨P, d, none, now⟩ :=
    findCoordinatorByPhone_save ⟨P, d, none, now⟩ _
  constructor
  · unfold login
    rw [hfind]
    simp only []
    rw [if_pos hne]
  · intro M
    rw [hfind]
    simp only [Option.some.injEq]
    constructor
    · rintro ⟨c, hc, hM⟩
      rw [← hc] at hM
      exact hM.symm
    · rintro rfl
      exact ⟨_, rfl, rfl⟩

/-! ## Claim C2 -/

theorem coordRel_symm :
    Symmetric (fun a b : Coordinator =>
      a.phoneNumber ≠ b.phoneNumber ∧ a.projectName ≠ b.projectName) :=
  fun _ _ h => ⟨Ne.symm h.1, Ne.symm h.2⟩

theorem coordInvariant_delete (p : Str) (s : Store) (h : CoordInvariant s) :
    CoordInvariant (deleteCoordinatorByPhone p s) :=
  List.Pairwise.filter _ h

theorem coordInvariant_save {c : Coordinator} {s : Store} (h : CoordInvariant s)
    (hname : ∀ x ∈ s.coordinators, x.phoneNumber ≠ c.phoneNumber →
      x.projectName ≠ c.projectName) :
    CoordInvariant (saveCoordinator c s) := by
  unfold CoordInvariant saveCoordinator
  simp only []
  rw [List.pairwise_cons]
  constructor
  · intro x hx
    rw [List.mem_filter] at hx
    have hxp : x.phoneNumber ≠ c.phoneNumber := by simpa using hx.2
    exact ⟨Ne.symm hxp, Ne.symm (hname x hx.1 hxp)⟩
  · exact List.Pairwise.filter _ h

theorem coordInvariant_register (registry : List Str) (now : Nat) (P N : Str)
    (s : Store) (h : CoordInvariant s) :
    CoordInvariant (register registry now P N s).1 := by
  cases hdec : decodeURIComponent N with
  | none =>
    unfold register
    rw [hdec]
    exact h
  | some d =>
    cases hc : findCoordinatorByProject d (deleteCoordinatorByPhone P s) with
    | some c =>
      simp only [register_eq_of_decode hdec, hc]
      exact coordInvariant_delete P s h
    | none =>
      by_cases hr : d ∈ registry
      · simp only [register_eq_of_decode hdec, hc, if_pos hr]
        exact coordInvariant_delete P s h
      · simp only [register_eq_of_decode hdec, hc, if_neg hr]
        exact coordInvariant_save (coordInvariant_delete P s h) (by
          intro x hx _
          unfold findCoordinatorByProject at hc
          rw [List.find?_eq_none] at hc
          simpa using hc x hx)

theorem coordInvariant_login (registry : List Str) (fresh : Str) (now : Nat)
    (P N : Str) (s : Store) (h : CoordInvariant s) :
    CoordInvariant (login registry fresh now P N s).1 := by
  unfold login
  cases hf : findCoordinatorByPhone P s with
  | none => exact h
  | some c =>
    simp only []
    by_cases hn : c.projectName ≠ N
    · rw [if_pos hn]
      exact h
    · rw [if_neg hn]
      cases hd : decodeURIComponent c.projectName with
      | none => exact h
      | some d =>
        simp only []
        by_cases hr : d ∈ registry
        · rw [if_pos hr]
          refine coordInvariant_save h ?_
          intro x hx hxp
          have hmem := findCoordinatorByPhone_mem hf
          have hxc : x ≠ c := fun he => hxp (by rw [he])
          exact (List.Pairwise.forall coordRel_symm h hx hmem hxc).2
        · rw [if_neg hr]
          exact h

theorem coordInvariant_unregister (P : Str) (s : Store) (h : CoordInvariant s) :
    CoordInvariant (unregister P s).1 := by
  unfold unregister
  cases hf : findCoordinatorByPhone P s with
  | none => exact h
  | some c => exact coordInvariant_delete P s h

theorem delegateMember_coordinators (fresh : Str) (now : Nat) (cp mp tk : Str)
    (s : Store) :
    (delegateMember fresh now cp mp tk s).1.coordinators = s.coordinators := by
  unfold delegateMember
  repeat' split
  all_goals rfl

/-- Claim C2: in every state reachable from the empty store by any sequence
of register, unregister, login and delegateMember operations (for any
request data, clock, generated tokens and external registry contents), at
most one coordinator record exists per phone number and no two distinct
stored coordinator records hold the same project name. -/
theorem reachable_coordinator_uniqueness (s : Store) (h : Reachable s) :
    CoordInvariant s := by
  induction h with
  | refl => exact List.Pairwise.nil
  | tail hsteps hstep ih =>
    cases hstep with
    | register registry now p n => exact coordInvariant_register registry now p n _ ih
    | unregister p => exact coordInvariant_unregister p _ ih
    | login registry fresh now p n =>
      exact coordInvariant_login registry fresh now p n _ ih
    | delegate fresh now cp mp tk =>
      show List.Pairwise _ _
      rw [delegateMember_coordinators]
      exact ih

/-- Witness for C2: the state reached by one registration step from the
empty store satisfies the coordinator-uniqueness invariant. -/
theorem reachable_coordinator_uniqueness_witness :
    CoordInvariant (register [] 0 phone1 alphaName emptyStore).1 :=
  reachable_coordinator_uniqueness _
    (Relation.ReflTransGen.single (Step.register [] 0 phone1 alphaName emptyStore))

/-- Witness for C10: registering `"A%20B"` stores `"A B"`; logging in again
with the very same argument `"A%20B"` is rejected as `Unauthorized`. -/
theorem register_login_roundtrip_unauthorized_witness :
    (login [] tok1 1 phone1 (("A%20B").toList)
        (register [] 0 phone1 (("A%20B").toList) emptyStore).1).2 =
      .error (unauthorizedError invalidCredentialsMsg) :=
  (register_login_roundtrip_unauthorized [] [] 0 1 tok1 phone1
    (("A%20B").toList) (("A B").toList) emptyStore (phone1, ("A B").toList)
    (by decide) (by decide) rfl).1

/-! ## Login equation lemmas -/

theorem login_eq_noCoord {registry : List Str} {fresh : Str} {now : Nat}
    {P N : Str} {s : Store} (hf : findCoordinatorByPhone P s = none) :
    login registry fresh now P N s =
      (s, .error (unauthorizedError invalidCredentialsMsg)) := by
  unfold login
  rw [hf]

theorem login_eq_nameMismatch {registry : List Str} {fresh : Str} {now : Nat}
    {P N : Str} {s : Store} {c : Coordinator}
    (hf : findCoordinatorByPhone P s = some c) (hn : c.projectName ≠ N) :
    login registry fresh now P N s =
      (s, .error (unauthorizedError invalidCredentialsMsg)) := by
  unfold login
  rw [hf]
  simp only []
  rw [if_pos hn]

theorem login_eq_uriError {registry : List Str} {fresh : Str} {now : Nat}
    {P N : Str} {s : Store} {c : Coordinator}
    (hf : findCoordinatorByPhone P s = some c) (hn : c.projectName = N)
    (hd : decodeURIComponent c.projectName = none) :
    login registry fresh now P N s = (s, .error uriError) := by
  unfold login
  rw [hf]
  simp only []
  rw [if_neg (fun hh => hh hn)]
  rw [hd]

theorem login_eq_notFound {registry : List Str} {fresh : Str} {now : Nat}
    {P N : Str} {s : Store} {c : Coordinator} {d : Str}
    (hf : findCoordinatorByPhone P s = some c) (hn : c.projectName = N)
    (hd : decodeURIComponent c.projectName = some d) (hr : d ∉ registry) :
    login registry fresh now P N s = (s, .error projectNotFoundError) := by
  unfold login
  rw [hf]
  simp only []
  rw [if_neg (fun hh => hh hn)]
  rw [hd]
  simp only []
  rw [if_neg hr]

theorem login_eq_save {registry : List Str} {fresh : Str} {now : Nat}
    {P N : Str} {s : Store} {c : Coordinator} {d : Str}
    (hf : findCoordinatorByPhone P s = some c) (hn : c.projectName = N)
    (hd : decodeURIComponent c.projectName = some d) (hr : d ∈ registry) :
    login registry fresh now P N s =
      (saveCoordinator { c with token := some fresh, createdAt := now } s,
        .ok (fresh, c.projectName)) := by
  unfold login
  rw [hf]
  simp only []
  rw [if_neg (fun hh => hh hn)]
  rw [hd]
  simp only []
  rw [if_pos hr]

/-! ## Claim C4 -/

/-- Claim C4: `login P N` fails `Unauthorized` exactly when no coordinator
record exists for `P` or the stored project name differs from the supplied
`N` compared as raw, undecoded strings; past those checks (for a stored name
that decodes), it fails `ProjectNotFound` exactly when the decoded stored
name is absent from the external registry; the checks happen in that order,
and every failing login leaves the store unchanged — no token is minted or
stored. -/
theorem login_failure_spec (registry : List Str) (fresh : Str) (now : Nat)
    (P N : Str) (s : Store) :
    ((login registry fresh now P N s).2 =
        .error (unauthorizedError invalidCredentialsMsg) ↔
      findCoordinatorByPhone P s = none ∨
        ∃ c, findCoordinatorByPhone P s = some c ∧ c.projectName ≠ N) ∧
    (∀ c d, findCoordinatorByPhone P s = some c → c.projectName = N →
      decodeURIComponent c.projectName = some d →
      ((login registry fresh now P N s).2 = .error projectNotFoundError ↔
        d ∉ registry)) ∧
    (∀ e, (login registry fresh now P N s).2 = .error e →
      (login registry fresh now P N s).1 = s) := by
  cases hf : findCoordinatorByPhone P s with
  | none =>
    rw [login_eq_noCoord hf]
    refine ⟨by simp, ?_, fun e _ => rfl⟩
    intro c d hc
    exact absurd hc (by simp)
  | some c =>
    by_cases hn : c.projectName = N
    · cases hd : decodeURIComponent c.projectName with
      | none =>
        rw [login_eq_uriError hf hn hd]
        refine ⟨?_, ?_, fun e _ => rfl⟩
        · refine iff_of_false (by simp [uriError, unauthorizedError]) ?_
          rintro (hno | ⟨c', hc', hn'⟩)
          · exact Option.noConfusion hno
          · rw [← Option.some.inj hc'] at hn'
            exact hn' hn
        · intro c' d hc' hn' hd'
          rw [← Option.some.inj hc'] at hd'
          rw [hd] at hd'
          exact Option.noConfusion hd'
      | some d =>
        by_cases hr : d ∈ registry
        · rw [login_eq_save hf hn hd hr]
          refine ⟨?_, ?_, ?_⟩
          · refine iff_of_false (by simp) ?_
            rintro (hno | ⟨c', hc', hn'⟩)
            · exact Option.noConfusion hno
            · rw [← Option.some.inj hc'] at hn'
              exact hn' hn
          · intro c' d' hc' hn' hd'
            rw [← Option.some.inj hc'] at hd'
            rw [hd] at hd'
            rw [← Option.some.inj hd']
            exact iff_of_false (by simp) (fun hno => hno hr)
          · intro e he
            exact absurd he (by simp)
        · rw [login_eq_notFound hf hn hd hr]
          refine ⟨?_, ?_, fun e _ => rfl⟩
          · refine iff_of_false (by simp [projectNotFoundError, unauthorizedError]) ?_
            rintro (hno | ⟨c', hc', hn'⟩)
            · exact Option.noConfusion hno
            · rw [← Option.some.inj hc'] at hn'
              exact hn' hn
          · intro c' d' hc' hn' hd'
            rw [← Option.some.inj hc'] at hd'
            rw [hd] at hd'
            rw [← Option.some.inj hd']
            exact iff_of_true rfl hr
    · rw [login_eq_nameMismatch hf hn]
      refine ⟨iff_of_true rfl (Or.inr ⟨c, rfl, hn⟩), ?_, fun e _ => rfl⟩
      intro c' d hc' hn' hd'
      rw [← Option.some.inj hc'] at hn'
      exact absurd hn' hn

/-- Witness for C4: logging in as `phone1` with the wrong project name
(`"Beta"` instead of the stored `"Alpha"`) fails `Unauthorized` and leaves
the store unchanged. -/
theorem login_failure_spec_witness :
    (login [] tok1 0 phone1 betaName storeFresh).2 =
      .error (unauthorizedError invalidCredentialsMsg) ∧
    (login [] tok1 0 phone1 betaName storeFresh).1 = storeFresh := by
  have h := login_failure_spec [] tok1 0 phone1 betaName storeFresh
  have h1 := h.1.mpr (Or.inr ⟨coordFresh, by decide, by decide⟩)
  exact ⟨h1, h.2.2 _ h1⟩

/-! ## Claim C5 -/

/-- Claim C5: every successful `login P N` returns the freshly generated
token together with the originally stored project name (not a re-decoded
one), and overwrites the coordinator record keeping every existing field
except `token`, set to the fresh value, and `createdAt`, set to the current
time; the overwritten record is what the store then yields for `P`. -/
theorem login_success_overwrite (registry : List Str) (fresh : Str) (now : Nat)
    (P N : Str) (s : Store) (t pn : Str)
    (h : (login registry fresh now P N s).2 = .ok (t, pn)) :
    ∃ c, findCoordinatorByPhone P s = some c ∧ t = fresh ∧ pn = c.projectName ∧
      (login registry fresh now P N s).1 =
        saveCoordinator { c with token := some fresh, createdAt := now } s ∧
      findCoordinatorByPhone P (login registry fresh now P N s).1 =
        some { c with token := some fresh, createdAt := now } := by
  cases hf : findCoordinatorByPhone P s with
  | none =>
    rw [login_eq_noCoord hf] at h
    exact Except.noConfusion h
  | some c =>
    by_cases hn : c.projectName = N
    · cases hd : decodeURIComponent c.projectName with
      | none =>
        rw [login_eq_uriError hf hn hd] at h
        exact Except.noConfusion h
      | some d =>
        by_cases hr : d ∈ registry
        · rw [login_eq_save hf hn hd hr] at h ⊢
          have hp := Except.ok.inj h
          have hcp : c.phoneNumber = P := findCoordinatorByPhone_phone hf
          exact ⟨c, rfl, (congrArg Prod.fst hp).symm,
            (congrArg Prod.snd hp).symm, rfl,
            findCoordinatorByPhone_save_key _ _ hcp⟩
        · rw [login_eq_notFound hf hn hd hr] at h
          exact Except.noConfusion h
    · rw [login_eq_nameMismatch hf hn] at h
      exact Except.noConfusion h

/-- Witness for C5: a successful login of `phone1` on `storeFresh` persists
the coordinator record with the fresh token and new `createdAt`. -/
theorem login_success_overwrite_witness :
    (login [alphaName] tok1 7 phone1 alphaName storeFresh).1 =
      saveCoordinator { coordFresh with token := some tok1, createdAt := 7 }
        storeFresh := by
  obtain ⟨c, hc, ht, hpn, hst, hfind⟩ :=
    login_success_overwrite [alphaName] tok1 7 phone1 alphaName storeFresh
      tok1 alphaName rfl
  have h0 : findCoordinatorByPhone phone1 storeFresh = some coordFresh := rfl
  have hcc : c = coordFresh := (Option.some.inj (h0.symm.trans hc)).symm
  rw [hcc] at hst
  exact hst

/-! ## The member phone pattern -/

theorem phoneCore_iff (l : Str) :
    phoneCore l = true ↔ ∃ d ds, l = d :: ds ∧ '1' ≤ d ∧ d ≤ '9' ∧
      (∀ c ∈ ds, '0' ≤ c ∧ c ≤ '9') ∧ 1 ≤ ds.length ∧ ds.length ≤ 14 := by
  cases l with
  | nil => simp [phoneCore]
  | cons d ds =>
    unfold phoneCore
    simp only [Bool.and_eq_true, decide_eq_true_eq, List.all_eq_true,
      List.cons.injEq]
    constructor
    · rintro ⟨⟨⟨h1, h9⟩, hl1, hl2⟩, hall⟩
      exact ⟨d, ds, ⟨rfl, rfl⟩, h1, h9, hall, hl1, hl2⟩
    · rintro ⟨d', ds', ⟨rfl, rfl⟩, h1, h9, hall, hl1, hl2⟩
      exact ⟨⟨⟨h1, h9⟩, hl1, hl2⟩, hall⟩

theorem isValidMemberPhone_iff (s : Str) :
    isValidMemberPhone s = true ↔ PhonePatternSpec s := by
  cases s with
  | nil =>
    unfold isValidMemberPhone PhonePatternSpec
    simp
  | cons c rest =>
    by_cases hp : c = '+'
    · subst hp
      have hv : isValidMemberPhone ('+' :: rest) = phoneCore rest := rfl
      rw [hv, phoneCore_iff]
      unfold PhonePatternSpec
      constructor
      · rintro ⟨d, ds, rfl, h1, h9, hall, hl1, hl2⟩
        exact ⟨d, ds, Or.inr rfl, h1, h9, hall, hl1, hl2⟩
      · rintro ⟨d, ds, hcase | hcase, h1, h9, hall, hl1, hl2⟩
        · obtain ⟨hd, -⟩ := List.cons.inj hcase
          rw [← hd] at h1
          exact absurd h1 (by decide)
        · exact ⟨d, ds, (List.cons.inj hcase).2, h1, h9, hall, hl1, hl2⟩
    · unfold isValidMemberPhone
      simp only []
      rw [if_neg hp, phoneCore_iff]
      unfold PhonePatternSpec
      constructor
      · rintro ⟨d, ds, heq, h1, h9, hall, hl1, hl2⟩
        exact ⟨d, ds, Or.inl heq, h1, h9, hall, hl1, hl2⟩
      · rintro ⟨d, ds, hcase | hcase, h1, h9, hall, hl1, hl2⟩
        · exact ⟨d, ds, hcase, h1, h9, hall, hl1, hl2⟩
        · exact absurd (List.cons.inj hcase).1 hp

/-! ## Delegation equation lemmas -/

theorem delegate_eq_save {fresh : Str} {now : Nat} {cp mp tk : Str} {s : Store}
    {c : Coordinator} {pn : Str}
    (hc : findCoordinatorByPhone cp s = some c)
    (htk : c.token = some tk)
    (hpn : findProjectByCoordinatorPhone cp s = some pn)
    (hval : isValidMemberPhone mp = true)
    (hnew : findMemberByPhone mp s = none) :
    delegateMember fresh now cp mp tk s =
      (saveMember ⟨mp, fresh, c.phoneNumber, pn, now⟩ s, .ok (fresh, pn)) := by
  unfold delegateMember
  rw [hc]
  simp only []
  rw [htk]
  simp only []
  rw [hpn]
  simp only []
  rw [show verifyBearerAuth tk tk = .ok () from by simp [verifyBearerAuth]]
  simp only []
  rw [if_pos hval, hnew]

theorem delegate_eq_dup {fresh : Str} {now : Nat} {cp mp tk : Str} {s : Store}
    {c : Coordinator} {pn : Str} {m : Member}
    (hc : findCoordinatorByPhone cp s = some c)
    (htk : c.token = some tk)
    (hpn : findProjectByCoordinatorPhone cp s = some pn)
    (hval : isValidMemberPhone mp = true)
    (hm : findMemberByPhone mp s = some m) :
    delegateMember fresh now cp mp tk s =
      (s, .error (badRequestError alreadyRegisteredMsg)) := by
  unfold delegateMember
  rw [hc]
  simp only []
  rw [htk]
  simp only []
  rw [hpn]
  simp only []
  rw [show verifyBearerAuth tk tk = .ok () from by simp [verifyBearerAuth]]
  simp only []
  rw [if_pos hval, hm]

theorem delegate_eq_badPhone {fresh : Str} {now : Nat} {cp mp tk : Str}
    {s : Store} {c : Coordinator} {pn : Str}
    (hc : findCoordinatorByPhone cp s = some c)
    (htk : c.token = some tk)
    (hpn : findProjectByCoordinatorPhone cp s = some pn)
    (hval : isValidMemberPhone mp = false) :
    delegateMember fresh now cp mp tk s =
      (s, .error (badRequestError invalidPhoneFormatMsg)) := by
  unfold delegateMember
  rw [hc]
  simp only []
  rw [htk]
  simp only []
  rw [hpn]
  simp only []
  rw [show verifyBearerAuth tk tk = .ok () from by simp [verifyBearerAuth]]
  simp only []
  rw [if_neg (by simp [hval])]

/-! ## Claim C6 -/

/-- Claim C6: for every successful delegation — coordinator found for
`cp` holding exactly the presented token, store yielding a project name for
`cp`, well-formed member phone not yet registered — exactly one member
record `{phoneNumber := mp, token := fresh, coordinatorPhone := cp,
projectName := pn, createdAt := now}` is created (prepended to the member
table, coordinators untouched) and the call returns the fresh token together
with the project name. -/
theorem delegate_success_creates_member (fresh : Str) (now : Nat)
    (cp mp tk : Str) (s : Store) (c : Coordinator) (pn : Str)
    (hc : findCoordinatorByPhone cp s = some c)
    (htk : c.token = some tk)
    (hpn : findProjectByCoordinatorPhone cp s = some pn)
    (hval : isValidMemberPhone mp = true)
    (hnew : findMemberByPhone mp s = none) :
    (delegateMember fresh now cp mp tk s).2 = .ok (fresh, pn) ∧
    (delegateMember fresh now cp mp tk s).1.members =
      (⟨mp, fresh, cp, pn, now⟩ : Member) :: s.members ∧
    (delegateMember fresh now cp mp tk s).1.coordinators = s.coordinators := by
  have hcp : c.phoneNumber = cp := findCoordinatorByPhone_phone hc
  have hmem : s.members.filter (fun x => !(x.phoneNumber == mp)) = s.members := by
    rw [List.filter_eq_self]
    intro a ha
    unfold findMemberByPhone at hnew
    rw [List.find?_eq_none] at hnew
    simpa using hnew a ha
  rw [delegate_eq_save hc htk hpn hval hnew]
  refine ⟨rfl, ?_, rfl⟩
  unfold saveMember
  simp only []
  rw [hcp, hmem]

/-- Witness for C6: the tokened coordinator of `storeAlpha` delegates the
member phone `"12"`, creating exactly one member record. -/
theorem delegate_success_creates_member_witness :
    (delegateMember (("m").toList) 3 phone1 (("12").toList) tok1 storeAlpha).2 =
      .ok ((("m").toList), alphaName) ∧
    (delegateMember (("m").toList) 3 phone1 (("12").toList) tok1
        storeAlpha).1.members =
      [⟨("12").toList, ("m").toList, phone1, alphaName, 3⟩] := by
  have h := delegate_success_creates_member (("m").toList) 3 phone1
    (("12").toList) tok1 storeAlpha coordAlpha alphaName (by decide) (by decide)
    (by decide) (by decide) (by decide)
  refine ⟨h.1, ?_⟩
  rw [h.2.1]
  rfl

/-! ## Claim C7 -/

theorem delegate_state_cases (fresh : Str) (now : Nat) (cp mp tk : Str)
    (s : Store) :
    (delegateMember fresh now cp mp tk s).1 = s ∨
      ∃ r, (delegateMember fresh now cp mp tk s).2 = .ok r := by
  unfold delegateMember
  repeat' split
  all_goals simp

/-- Claim C7: whenever member delegation fails — coordinator absent or
tokenless, no project for the coordinator, bearer mismatch, malformed or
duplicate member phone — no member record is created and the store is not
mutated at all: every failing branch happens before the single `saveMember`
call. -/
theorem delegate_failure_no_mutation (fresh : Str) (now : Nat)
    (cp mp tk : Str) (s : Store) (e : AuthError)
    (h : (delegateMember fresh now cp mp tk s).2 = .error e) :
    (delegateMember fresh now cp mp tk s).1 = s := by
  rcases delegate_state_cases fresh now cp mp tk s with hs | ⟨r, hr⟩
  · exact hs
  · rw [h] at hr
    exact Except.noConfusion hr

/-- Witness for C7: delegation against the empty store fails and leaves the
store empty. -/
theorem delegate_failure_no_mutation_witness :
    (delegateMember tok1 0 phone1 phone2 tok1 emptyStore).1 = emptyStore :=
  delegate_failure_no_mutation tok1 0 phone1 phone2 tok1 emptyStore
    (unauthorizedError invalidCoordMsg) rfl

/-! ## Claim C8 -/

/-- Claim C8: once the coordinator lookup and the bearer check have passed,
delegation fails `BadRequest` with the phone-format message exactly when the
member phone does not consist of an optional leading `+` followed by a first
digit `1-9` and then 1 to 14 further digits (2 to 15 digits in total),
matching the regular expression of `auth.js:303`. -/
theorem delegate_phone_validation (fresh : Str) (now : Nat) (cp mp tk : Str)
    (s : Store) (c : Coordinator)
    (hc : findCoordinatorByPhone cp s = some c)
    (htk : c.token = some tk) :
    ((delegateMember fresh now cp mp tk s).2 =
        .error (badRequestError invalidPhoneFormatMsg) ↔
      ¬ PhonePatternSpec mp) := by
  have hpn : findProjectByCoordinatorPhone cp s = some c.projectName := by
    unfold findProjectByCoordinatorPhone
    rw [hc]
    rfl
  rw [← isValidMemberPhone_iff]
  by_cases hval : isValidMemberPhone mp = true
  · cases hm : findMemberByPhone mp s with
    | none =>
      rw [delegate_eq_save hc htk hpn hval hm]
      exact iff_of_false (by simp) (fun hno => hno hval)
    | some m =>
      rw [delegate_eq_dup hc htk hpn hval hm]
      have hmsg : alreadyRegisteredMsg ≠ invalidPhoneFormatMsg := by decide
      exact iff_of_false (by simp [badRequestError, hmsg]) (fun hno => hno hval)
  · rw [delegate_eq_badPhone hc htk hpn (by simpa using hval)]
    exact iff_of_true rfl hval

/-- Witness for C8: with the coordinator and bearer checks passed, the
member phone `"abc"` is rejected as `BadRequest`. -/
theorem delegate_phone_validation_witness :
    (delegateMember tok1 0 phone1 (("abc").toList) tok1 storeAlpha).2 =
      .error (badRequestError invalidPhoneFormatMsg) := by
  refine (delegate_phone_validation tok1 0 phone1 (("abc").toList) tok1
    storeAlpha coordAlpha (by decide) (by decide)).mpr (fun hspec => ?_)
  have hval := (isValidMemberPhone_iff (("abc").toList)).mpr hspec
  exact absurd hval (by decide)

/-! ## Claim C9 -/

/-- Claim C9: there is a project name accepted by `register` whose decoded
form contains a `%` that does not start a valid escape — registering
`"100%25"` stores `"100%"` — after which login re-decodes the stored name
and throws: a login with the exactly matching stored name fails with the
`URIError`, no login for that coordinator can ever succeed, and the
`URIError` is neither of the documented typed errors `Unauthorized` and
`ProjectNotFound`. -/
theorem register_then_login_uriError :
    (register [] 0 phone1 (("100%25").toList) emptyStore).2 =
      .ok (phone1, ("100%").toList) ∧
    decodeURIComponent (("100%").toList) = none ∧
    (∀ (registry : List Str) (fresh : Str) (now : Nat),
      (login registry fresh now phone1 (("100%").toList)
          (register [] 0 phone1 (("100%25").toList) emptyStore).1).2 =
        .error uriError) ∧
    (∀ (registry : List Str) (fresh : Str) (now : Nat) (M t pn : Str),
      (login registry fresh now phone1 M
          (register [] 0 phone1 (("100%25").toList) emptyStore).1).2 ≠
        .ok (t, pn)) ∧
    uriError.kind ≠ ErrKind.unauthorized ∧
    uriError.kind ≠ ErrKind.projectNotFound := by
  refine ⟨rfl, rfl, fun _ _ _ => rfl, ?_, by decide, by decide⟩
  intro registry fresh now M t pn h
  have hf : findCoordinatorByPhone phone1
      (register [] 0 phone1 (("100%25").toList) emptyStore).1 =
      some ⟨phone1, ("100%").toList, none, 0⟩ := rfl
  by_cases hM : (⟨phone1, ("100%").toList, none, 0⟩ : Coordinator).projectName = M
  · rw [login_eq_uriError hf hM rfl] at h
    exact Except.noConfusion h
  · rw [login_eq_nameMismatch hf hM] at h
    exact Except.noConfusion h

end Comapeo
